import Mathlib

/-!
# Verification of `research_paper_analyzer.py`

A shallow embedding of the core pipeline of the Healthcare AI Implementation
Paper Analyzer (`src/research_paper_analyzer.py`): PDF text extraction,
recursive corpus loading, per-paper evaluation with per-record error
handling, ranking, and domain-count aggregation.

Modelling conventions:
* A PDF document on disk is `Except String (List String)`: either a read/parse
  failure (the exception message) or the list of per-page extracted texts.
  Any exception raised while opening the file or extracting a page is folded
  into the `.error` case, matching the single `try/except` in
  `extract_text_from_pdf`.
* A Python dict holding a parsed JSON judgment is a structure whose fields are
  all `Option`s; `d.get(k, default)` becomes `(… field …).getD default`.
  A paper's `'scores'` slot starts as the empty dict `{}` and is assigned at
  most once, so it is modelled as `Option Scores` (`none` = not yet judged).
* The external OpenAI call plus `json.loads` is an oracle
  `judge : String → Except String Scores`, taking the 7000-character excerpt
  that the code sends; `.error` covers every exception the `try` block can
  raise (API error, timeout, unparseable JSON).
* `time.sleep(0.5)` is recorded as the rational `1/2` appended to a delay
  trace; it sits inside the `try`, after the result is stored.
* Python's `sorted(key=…, reverse=True)` is a stable descending sort
  (CPython's Timsort is a stable mergesort); it is embedded as
  `List.mergeSort` with the boolean relation "score of the first is ≥ score
  of the second", which computes exactly that stable descending sort.
* All functions are total Lean definitions, which embeds the guarantee that
  the Python functions return normally (every exception the claims mention is
  caught inside the function that the definition models).
-/

namespace ResearchPaperAnalyzer

/-- The parsed JSON judgment dict (`JudgmentRecord`).  Every field is optional
because the dict may lack any key; `.get(key, default)` is `getD`.  The field
set is the schema requested from the model plus the `error` key that the
`except` branch of `analyze_papers` adds. -/
structure Scores where
  meets_inclusion_criteria : Option Bool := none
  inclusion_justification : Option String := none
  relevance_to_rq1 : Option Int := none
  relevance_to_rq2 : Option Int := none
  relevance_to_rq3 : Option Int := none
  implementation_quality : Option Int := none
  paper_summary : Option String := none
  ai_techniques : Option (List String) := none
  healthcare_domain : Option String := none
  implementation_details : Option String := none
  key_findings : Option String := none
  challenges_identified : Option (List String) := none
  success_factors : Option (List String) := none
  overall_score : Option Int := none
  recommendation : Option String := none
  error : Option String := none
deriving Repr, DecidableEq

/-- A paper record as built by `load_papers`: the dict
`{'filename': …, 'filepath': …, 'content': …, 'scores': {}}`.
`scores = none` models the initial empty dict, `some s` the dict assigned by
`analyze_papers`. -/
structure Paper where
  filename : String
  filepath : String
  content : String
  scores : Option Scores := none
deriving Repr, DecidableEq

/-- `paper['scores'].get('meets_inclusion_criteria', False)`:
the empty dict and a dict without the key both yield `False`. -/
def get_incl (p : Paper) : Bool :=
  (p.scores.bind (fun s => s.meets_inclusion_criteria)).getD false

/-- `paper['scores'].get('overall_score', 0)`. -/
def get_overall_score (p : Paper) : Int :=
  (p.scores.bind (fun s => s.overall_score)).getD 0

/-- `paper['scores'].get('healthcare_domain', 'Unspecified')`. -/
def get_domain (p : Paper) : String :=
  (p.scores.bind (fun s => s.healthcare_domain)).getD "Unspecified"

/-! ## Extractor (`extract_text_from_pdf`) -/

/-- `pages_to_read = min(len(reader.pages), max_pages) if max_pages else len(reader.pages)`.
Note the Python truthiness test: both `None` and `0` take the else branch. -/
def pagesToRead (numPages : Nat) (max_pages : Option Nat) : Nat :=
  match max_pages with
  | some m => if m ≠ 0 then min numPages m else numPages
  | none => numPages

/-- Number of pages the extraction loop touches: none on a read failure,
otherwise `pagesToRead`. -/
def pages_read (doc : Except String (List String)) (max_pages : Option Nat) : Nat :=
  match doc with
  | .error _ => 0
  | .ok pages => pagesToRead pages.length max_pages

/-- `extract_text_from_pdf`: concatenates `extract_text() + "\n"` for each of
the first `pages_to_read` pages; on any exception returns `""`. -/
def extract_text_from_pdf (doc : Except String (List String))
    (max_pages : Option Nat := none) : String :=
  match doc with
  | .error _ => ""
  | .ok pages =>
    ((pages.take (pagesToRead pages.length max_pages)).map (fun t => t ++ "\n")).foldl
      (fun acc t => acc ++ t) ""

/-! ## Corpus Loader (`load_papers` / `process_directory`) -/

/-- Python's `item.lower()`: per-character lowercasing, stated over the
character list (Lean's `String.toLower` maps `Char.toLower` over the string
the same way, but through byte positions that do not evaluate in proofs). -/
def lower_name (s : String) : String := String.mk (s.data.map Char.toLower)

/-- Python's `item.lower().endswith('.pdf')`: the lowercased name has the
suffix `".pdf"`. -/
def has_pdf_ext (s : String) : Bool :=
  List.isSuffixOf ".pdf".data (lower_name s).data

/-- A filesystem entry as seen by the recursive walk.  `baddir` is a
subdirectory for which `os.listdir` raises (permission or I/O error); its
(unreachable) contents are not represented. -/
inductive Entry where
  | file (name : String) (doc : Except String (List String))
  | dir (name : String) (entries : List Entry)
  | baddir (name : String) (err : String)
deriving Repr

mutual

/-- One iteration of the `for item in os.listdir(directory)` loop body:
directories recurse, names ending in the case-insensitive `.pdf` extension are
extracted with a 10-page cap and recorded if non-empty, everything else is
skipped.  A `baddir` child contributes only the warning that its own
`except` branch prints.  Returns (records, warnings). -/
def process_entry (directory : String) : Entry → List Paper × List String
  | .file name doc =>
    if has_pdf_ext name then
      let paper_text := extract_text_from_pdf doc (some 10)
      if paper_text ≠ "" then
        ([{ filename := name, filepath := directory ++ "/" ++ name,
            content := paper_text, scores := none }], [])
      else ([], [])
    else ([], [])
  | .dir name entries => process_directory (directory ++ "/" ++ name) entries
  | .baddir name err =>
    ([], ["Error accessing directory " ++ directory ++ "/" ++ name ++ ": " ++ err])

/-- `process_directory`, given the listing of `directory`: processes the
entries in listing order, concatenating records and warnings. -/
def process_directory (directory : String) : List Entry → List Paper × List String
  | [] => ([], [])
  | e :: es =>
    let r := process_entry directory e
    let rs := process_directory directory es
    (r.1 ++ rs.1, r.2 ++ rs.2)

end

/-- `load_papers`: runs the recursive walk from `paper_dir` and returns the
records, the warnings, and the `len(self.papers) > 0` result. -/
def load_papers (paper_dir : String) (entries : List Entry) :
    (List Paper × List String) × Bool :=
  let r := process_directory paper_dir entries
  (r, decide (0 < r.1.length))

mutual

/-- The `.pdf`-named files of an entry, in walk order, with the filepath the
walk would assign: (filename, filepath, document). -/
def pdf_files_entry (directory : String) :
    Entry → List (String × String × Except String (List String))
  | .file name doc =>
    if has_pdf_ext name then [(name, directory ++ "/" ++ name, doc)] else []
  | .dir name entries => pdf_files (directory ++ "/" ++ name) entries
  | .baddir _ _ => []

/-- The `.pdf`-named files under a listing, in walk order. -/
def pdf_files (directory : String) :
    List Entry → List (String × String × Except String (List String))
  | [] => []
  | e :: es => pdf_files_entry directory e ++ pdf_files directory es

end

mutual

/-- Every directory in the tree can be listed (no `baddir` anywhere). -/
def listable : Entry → Bool
  | .file _ _ => true
  | .dir _ entries => listableList entries
  | .baddir _ _ => false

/-- `listable` over a listing. -/
def listableList : List Entry → Bool
  | [] => true
  | e :: es => listable e && listableList es

end

/-! ## Evaluation Pipeline (`analyze_papers`) -/

/-- The error judgment dict built by the `except` branch:
`{"error": str(e), "meets_inclusion_criteria": False, "overall_score": 0,
"recommendation": "Error"}`. -/
def error_scores (e : String) : Scores :=
  { error := some e, meets_inclusion_criteria := some false,
    overall_score := some 0, recommendation := some "Error" }

/-- One iteration of the `analyze_papers` loop for one paper: the judge oracle
is called on `paper['content'][:7000]`; on success the result is stored and
`time.sleep(0.5)` runs (the sleep is inside the `try`, after the store); on
any exception the error judgment is stored and no sleep happens.  Returns the
updated record and the trace of sleep durations. -/
def analyze_one (judge : String → Except String Scores) (p : Paper) :
    Paper × List Rat :=
  match judge (p.content.take 7000) with
  | .ok analysis => ({ p with scores := some analysis }, [(1 : Rat) / 2])
  | .error e => ({ p with scores := some (error_scores e) }, [])

/-- `analyze_papers`: returns `False` and leaves the records untouched when
there are none; otherwise processes every record in order and returns `True`. -/
def analyze_papers (judge : String → Except String Scores) (papers : List Paper) :
    Bool × List Paper :=
  if papers.isEmpty then (false, papers)
  else (true, papers.map (fun p => (analyze_one judge p).1))

/-- The sleep durations accumulated across the whole `analyze_papers` run, in
order. -/
def analyze_delays (judge : String → Except String Scores) (papers : List Paper) :
    List Rat :=
  if papers.isEmpty then []
  else (papers.map (fun p => (analyze_one judge p).2)).flatten

/-! ## Ranker (`rank_papers`) -/

/-- The comparison realised by `sorted(…, key=lambda x: overall_score, reverse=True)`:
`a` may come before `b` iff `a`'s score is at least `b`'s. -/
def score_le (a b : Paper) : Bool :=
  decide (get_overall_score b ≤ get_overall_score a)

/-- `rank_papers`: filter to records whose judgment has
`meets_inclusion_criteria` true, then stable-sort by `overall_score`
descending. -/
def rank_papers (papers : List Paper) : List Paper :=
  (papers.filter get_incl).mergeSort score_le

/-! ## Aggregator (domain counts in `generate_detailed_review`) -/

/-- `domains[domain] = domains.get(domain, 0) + 1` on an insertion-ordered
association list (a Python dict). -/
def count_into (m : List (String × Nat)) (key : String) : List (String × Nat) :=
  match m with
  | [] => [(key, 1)]
  | (k, v) :: rest => if k = key then (k, v + 1) :: rest else (k, v) :: count_into rest key

/-- The domain-count dict built by `generate_detailed_review` over the ranked
(included) papers. -/
def domain_counts (ranked : List Paper) : List (String × Nat) :=
  ranked.foldl (fun m paper => count_into m (get_domain paper)) []

/-! ## Concrete fixtures used by scenarios, counterexamples and witnesses -/

/-- Included paper loaded first, overall score 40. -/
def paperA : Paper :=
  { filename := "A.pdf", filepath := "papers/A.pdf", content := "A",
    scores := some { meets_inclusion_criteria := some true, overall_score := some 40 } }

/-- Included paper loaded second, overall score 90. -/
def paperB : Paper :=
  { filename := "B.pdf", filepath := "papers/B.pdf", content := "B",
    scores := some { meets_inclusion_criteria := some true, overall_score := some 90 } }

/-- Included paper loaded third, overall score 90 (tied with `paperB`). -/
def paperC : Paper :=
  { filename := "C.pdf", filepath := "papers/C.pdf", content := "C",
    scores := some { meets_inclusion_criteria := some true, overall_score := some 90 } }

/-- An unjudged record fresh from the loader. -/
def paperX : Paper :=
  { filename := "X.pdf", filepath := "papers/X.pdf", content := "some text", scores := none }

/-! ## Claim C3: the `max_pages` cap -/

/-- C3 counterexample: the spec claims the number of pages read is
`min(document page count, max_pages)` for every non-negative `max_pages`, and
in particular that `max_pages = 0` reads no pages.  But `0` is falsy in the
Python test `if max_pages`, so a one-page document with `max_pages = 0` has
**one** page read, not `min 1 0 = 0`. -/
theorem pages_read_zero_cap_cex :
    pages_read (Except.ok ["page one"]) (some 0) ≠ min 1 0
    ∧ pages_read (Except.ok ["page one"]) (some 0) = 1 := by
  constructor
  · decide
  · rfl

/-- C3 amended: for every *positive* `max_pages` the number of pages read is
`min(document page count, max_pages)`; when `max_pages` is `0` or not given,
the cap is ignored (the truthiness test treats both as "no limit") and the
whole document is read. -/
theorem pages_read_spec (pages : List String) (m : Nat) :
    (0 < m → pages_read (Except.ok pages) (some m) = min pages.length m)
    ∧ pages_read (Except.ok pages) (some 0) = pages.length
    ∧ pages_read (Except.ok pages) none = pages.length := by
  refine ⟨fun hm => ?_, rfl, rfl⟩
  simp [pages_read, pagesToRead, Nat.pos_iff_ne_zero.mp hm]

/-- C3 witness: a 3-page document with cap 2 reads `min 3 2` pages. -/
theorem pages_read_spec_witness :
    pages_read (Except.ok ["a", "b", "c"]) (some 2) = min 3 2 :=
  (pages_read_spec ["a", "b", "c"] 2).1 (by decide)

/-! ## Claim C5: extraction failure yields the empty string -/

/-- C5: whenever reading or parsing the PDF fails (any exception inside the
`try`), `extract_text_from_pdf` returns the empty string; being a total
function of the failure case, it raises nothing to its caller. -/
theorem extract_text_from_pdf_failure (e : String) (max_pages : Option Nat) :
    extract_text_from_pdf (Except.error e) max_pages = "" := rfl

/-! ## Claim C4: the inter-call delay -/

/-- `analyze_delays` is the flattened per-record delay trace, also when the
batch is empty. -/
theorem analyze_delays_eq (judge : String → Except String Scores)
    (papers : List Paper) :
    analyze_delays judge papers =
      (papers.map (fun p => (analyze_one judge p).2)).flatten := by
  cases papers <;> simp [analyze_delays]

/-- C4 counterexample: the spec claims the 0.5 delay runs after every Judge
call, successful or not.  A one-record batch whose Judge call fails makes one
call, so the claim demands the delay trace `[1/2]`; the code's `except` branch
skips the sleep and the trace is empty. -/
theorem analyze_delays_cex :
    analyze_delays (fun _ => Except.error "Rate limit exceeded") [paperX] ≠ [(1 : Rat)/2]
    ∧ analyze_delays (fun _ => Except.error "Rate limit exceeded") [paperX] = [] := by
  constructor
  · decide
  · rfl

/-- C4 amended: the fixed 0.5-time-unit delay is applied after every
*successful* Judge call (it sits inside the `try`, after the result is
stored); a failed call skips it, so the delay trace holds exactly one `1/2`
entry per successful call and nothing for failures. -/
theorem analyze_delays_spec (judge : String → Except String Scores)
    (papers : List Paper) :
    (analyze_delays judge papers).length =
      (papers.filter (fun p => (judge (p.content.take 7000)).toBool)).length
    ∧ ∀ d ∈ analyze_delays judge papers, d = (1 : Rat)/2 := by
  rw [analyze_delays_eq]
  constructor
  · induction papers with
    | nil => rfl
    | cons p ps ih =>
      simp only [List.map_cons, List.flatten_cons, List.length_append, ih,
        List.filter_cons]
      cases h : judge (p.content.take 7000) <;>
        simp [analyze_one, h, Except.toBool, Nat.add_comm]
  · intro d hd
    simp only [List.mem_flatten, List.mem_map] at hd
    obtain ⟨l, ⟨p, _, hpl⟩, hdl⟩ := hd
    cases h : judge (p.content.take 7000) <;>
      simp [analyze_one, h, ← hpl] at hdl
    rw [hdl]
    norm_num

/-- C4 witness: a successful one-record batch produces the single delay
`1/2`, and every delay in its trace is `1/2`. -/
theorem analyze_delays_spec_witness :
    (1 : Rat)/2 ∈ analyze_delays (fun _ => Except.ok {}) [paperX]
    ∧ ∀ d ∈ analyze_delays (fun _ => Except.ok {}) [paperX], d = (1 : Rat)/2 :=
  ⟨by norm_num [analyze_delays, analyze_one], (analyze_delays_spec (fun _ => Except.ok {}) [paperX]).2⟩

/-! ## Claims about `analyze_papers` (C2, C8, C10) -/

/-- The evaluated batch keeps the input length. -/
theorem analyze_papers_length (judge : String → Except String Scores)
    (papers : List Paper) :
    (analyze_papers judge papers).2.length = papers.length := by
  unfold analyze_papers
  split <;> simp

/-- C2: if the Judge call for record `i` fails (raises or returns an
unparseable response), `analyze_papers` attaches to record `i` the error
judgment — `meets_inclusion_criteria = false`, `overall_score = 0`,
`recommendation = "Error"`, `error` holding the failure description — while
every other record receives exactly the judgment its own Judge call yields,
unaffected by the failure; the whole (total) function witnesses that the
batch runs to completion. -/
theorem analyze_papers_error_isolated (judge : String → Except String Scores)
    (papers : List Paper) (i : Nat) (p : Paper) (e : String)
    (hi : papers[i]? = some p)
    (hfail : judge (p.content.take 7000) = Except.error e) :
    ((analyze_papers judge papers).2)[i]? =
      some { p with scores := some (error_scores e) }
    ∧ (error_scores e).meets_inclusion_criteria = some false
    ∧ (error_scores e).overall_score = some 0
    ∧ (error_scores e).recommendation = some "Error"
    ∧ (error_scores e).error = some e
    ∧ ∀ (j : Nat) (q : Paper), j ≠ i → papers[j]? = some q →
        ((analyze_papers judge papers).2)[j]? = some ((analyze_one judge q).1) := by
  have hne : papers.isEmpty = false := by
    cases papers with
    | nil => simp at hi
    | cons a l => rfl
  refine ⟨?_, rfl, rfl, rfl, rfl, ?_⟩
  · simp only [analyze_papers, hne, Bool.false_eq_true, if_false,
      List.getElem?_map, hi, Option.map_some]
    simp [analyze_one, hfail]
  · intro j q _ hj
    simp [analyze_papers, hne, List.getElem?_map, hj]

/-- C2 witness: a one-record batch whose Judge call raises gets the error
judgment attached. -/
theorem analyze_papers_error_isolated_witness :
    ((analyze_papers (fun _ => Except.error "boom") [paperX]).2)[0]? =
      some { paperX with scores := some (error_scores "boom") } :=
  (analyze_papers_error_isolated (fun _ => Except.error "boom") [paperX] 0 paperX
    "boom" rfl rfl).1

/-- C8: `analyze_papers` signals "nothing to evaluate" (returns `false`,
records untouched) on an empty batch; otherwise it returns `true` together
with a list of the same length in which position `j` holds the evaluation of
input record `j` (same identity, in the same order) carrying a non-absent
judgment. -/
theorem analyze_papers_total (judge : String → Except String Scores)
    (papers : List Paper) :
    (papers = [] → analyze_papers judge papers = (false, []))
    ∧ (papers ≠ [] →
        (analyze_papers judge papers).1 = true
        ∧ (analyze_papers judge papers).2.length = papers.length
        ∧ ∀ (j : Nat) (q : Paper), papers[j]? = some q →
            ∃ r : Paper, ((analyze_papers judge papers).2)[j]? = some r
              ∧ r.scores.isSome = true
              ∧ r.filename = q.filename ∧ r.filepath = q.filepath) := by
  constructor
  · rintro rfl
    rfl
  · intro hne
    have hne' : papers.isEmpty = false := by
      cases papers with
      | nil => exact absurd rfl hne
      | cons a l => rfl
    refine ⟨by simp [analyze_papers, hne'], analyze_papers_length judge papers, ?_⟩
    intro j q hj
    refine ⟨(analyze_one judge q).1, ?_, ?_, ?_, ?_⟩
    · simp [analyze_papers, hne', List.getElem?_map, hj]
    all_goals cases h : judge (q.content.take 7000) <;> simp [analyze_one, h]

/-- C8 witness: a concrete one-record batch returns `true` and a judged
record of the same identity. -/
theorem analyze_papers_total_witness :
    (analyze_papers (fun _ => Except.ok {}) [paperX]).1 = true
    ∧ ∃ r : Paper, ((analyze_papers (fun _ => Except.ok {}) [paperX]).2)[0]? = some r
        ∧ r.scores.isSome = true
        ∧ r.filename = paperX.filename ∧ r.filepath = paperX.filepath := by
  have h := (analyze_papers_total (fun _ => Except.ok {}) [paperX]).2 (by decide)
  exact ⟨h.1, h.2.2 0 paperX rfl⟩

/-- C10: on a non-empty batch, `analyze_papers` writes only each record's
judgment slot: the `filename`, `filepath` and `content` of every record, and
the length and order of the record list, are identical before and after
evaluation. -/
theorem analyze_papers_frame (judge : String → Except String Scores)
    (papers : List Paper) (hne : papers ≠ []) :
    ((analyze_papers judge papers).2).map (fun p => (p.filename, p.filepath, p.content)) =
      papers.map (fun p => (p.filename, p.filepath, p.content)) := by
  have hne' : papers.isEmpty = false := by
    cases papers with
    | nil => exact absurd rfl hne
    | cons a l => rfl
  simp only [analyze_papers, hne', Bool.false_eq_true, if_false, List.map_map]
  apply List.map_congr_left
  intro p _
  cases h : judge (p.content.take 7000) <;> simp [analyze_one, h]

/-- C10 witness: the frame property at a concrete judged batch. -/
theorem analyze_papers_frame_witness :
    ((analyze_papers (fun _ => Except.ok {}) [paperX]).2).map
        (fun p => (p.filename, p.filepath, p.content)) =
      [paperX].map (fun p => (p.filename, p.filepath, p.content)) :=
  analyze_papers_frame (fun _ => Except.ok {}) [paperX] (by decide)

/-! ## Claim C1: ranking -/

/-- The ranking comparison is transitive. -/
theorem score_le_trans : ∀ a b c : Paper,
    score_le a b = true → score_le b c = true → score_le a c = true := by
  intro a b c hab hbc
  simp only [score_le, decide_eq_true_eq] at *
  exact le_trans hbc hab

/-- The ranking comparison is total. -/
theorem score_le_total : ∀ a b : Paper, (score_le a b || score_le b a) = true := by
  intro a b
  simp only [score_le, Bool.or_eq_true, decide_eq_true_eq]
  exact le_total (get_overall_score b) (get_overall_score a)

/-- Stability of the stable sort on a class of mutually tied elements: when
every two elements satisfying `p` compare `≤` both ways, sorting does not
change the `p`-subsequence. -/
theorem filter_mergeSort_tied (p : Paper → Bool)
    (hp : ∀ a b : Paper, p a = true → p b = true → score_le a b = true) :
    ∀ l : List Paper, (l.mergeSort score_le).filter p = l.filter p := by
  intro l
  induction l with
  | nil => simp
  | cons a l ih =>
    obtain ⟨l₁, l₂, h1, h2, h3⟩ := List.mergeSort_cons score_le_trans score_le_total a l
    rw [h1, List.filter_append, List.filter_cons]
    rw [h2, List.filter_append] at ih
    by_cases hpa : p a = true
    · have hl₁ : l₁.filter p = [] := by
        rw [List.filter_eq_nil_iff]
        intro b hb hpb
        have hfalse := h3 b hb
        rw [hp a b hpa hpb] at hfalse
        simp at hfalse
      rw [hl₁, List.nil_append] at ih
      rw [hl₁, hpa, List.filter_cons, hpa]
      simp only [if_true, List.nil_append, ih]
    · have hpa' : p a = false := by simpa using hpa
      rw [hpa', List.filter_cons, hpa']
      simp only [Bool.false_eq_true, if_false]
      exact ih

unseal List.merge List.mergeSort in
/-- The concrete tie-break scenario: three included papers loaded in order
A, B, C with overall scores 40, 90, 90 rank as [B, C, A] (B before C because
B was loaded first). -/
theorem rank_papers_scenario :
    rank_papers [paperA, paperB, paperC] = [paperB, paperC, paperA] := rfl

/-- C1: `rank_papers` returns exactly the records whose judgment has
`meets_inclusion_criteria` true (a permutation of the inclusion filter),
sorted by `overall_score` descending, with ties broken stably — restricted to
any single score value, the ranking equals the inclusion filter in input
order — and on the concrete scenario A=40, B=90, C=90 it returns [B, C, A]. -/
theorem rank_papers_spec (papers : List Paper) :
    (rank_papers papers).Perm (papers.filter get_incl)
    ∧ (rank_papers papers).Pairwise
        (fun a b => get_overall_score b ≤ get_overall_score a)
    ∧ (∀ s : Int, (rank_papers papers).filter (fun q => get_overall_score q == s) =
        (papers.filter get_incl).filter (fun q => get_overall_score q == s))
    ∧ rank_papers [paperA, paperB, paperC] = [paperB, paperC, paperA] := by
  refine ⟨List.mergeSort_perm _ _, ?_, ?_, rank_papers_scenario⟩
  · have h := List.sorted_mergeSort score_le_trans score_le_total
      (papers.filter get_incl)
    exact h.imp (fun hab => by simpa [score_le] using hab)
  · intro s
    apply filter_mergeSort_tied
    intro a b ha hb
    simp only [beq_iff_eq] at ha hb
    simp [score_le, ha, hb]

/-! ## Claim C9: domain-count aggregation -/

/-- Incrementing one key raises the total count by exactly one. -/
theorem sum_count_into (m : List (String × Nat)) (key : String) :
    ((count_into m key).map Prod.snd).sum = (m.map Prod.snd).sum + 1 := by
  induction m with
  | nil => simp [count_into]
  | cons kv rest ih =>
    obtain ⟨k, v⟩ := kv
    by_cases h : k = key <;> simp [count_into, h, ih] <;> omega

/-- Folding the counting loop over a list adds its length to the total. -/
theorem sum_domain_counts_fold (l : List Paper) :
    ∀ m : List (String × Nat),
      ((l.foldl (fun m paper => count_into m (get_domain paper)) m).map Prod.snd).sum =
        (m.map Prod.snd).sum + l.length := by
  induction l with
  | nil => simp
  | cons p l ih =>
    intro m
    simp only [List.foldl_cons, ih, sum_count_into, List.length_cons]
    omega

/-- Incrementing key `key` leaves every other key's count unchanged and
raises `key`'s count by one. -/
theorem lookup_count_into (m : List (String × Nat)) (key d : String) :
    ((count_into m key).lookup d).getD 0 =
      (m.lookup d).getD 0 + (if d = key then 1 else 0) := by
  induction m with
  | nil =>
    by_cases h : d = key
    · have hb : (d == key) = true := by simpa using h
      simp [count_into, List.lookup, hb, h]
    · have hb : (d == key) = false := by simpa using h
      simp [count_into, List.lookup, hb, h]
  | cons kv rest ih =>
    obtain ⟨k, v⟩ := kv
    by_cases hk : k = key
    · subst hk
      by_cases hd : d = k
      · have hb : (d == k) = true := by simpa using hd
        simp [count_into, List.lookup, hb, hd]
      · have hb : (d == k) = false := by simpa using hd
        simp [count_into, List.lookup, hb, hd]
    · simp only [count_into, if_neg hk]
      by_cases hd : d = k
      · have hb : (d == k) = true := by simpa using hd
        have hdkey : ¬d = key := by rw [hd]; exact hk
        simp [List.lookup, hb, hdkey]
      · have hb : (d == k) = false := by simpa using hd
        simp [List.lookup, hb, ih]

/-- Folding the counting loop tallies, for every key, exactly the papers whose
(defaulted) domain is that key. -/
theorem lookup_domain_counts_fold (l : List Paper) (d : String) :
    ∀ m : List (String × Nat),
      ((l.foldl (fun m paper => count_into m (get_domain paper)) m).lookup d).getD 0 =
        (m.lookup d).getD 0 + l.countP (fun p => get_domain p == d) := by
  induction l with
  | nil => simp
  | cons p l ih =>
    intro m
    simp only [List.foldl_cons, ih, lookup_count_into, List.countP_cons, beq_iff_eq]
    by_cases h : get_domain p = d
    · rw [if_pos h.symm, if_pos h]
      omega
    · rw [if_neg (fun hh => h hh.symm), if_neg h]
      omega

/-- C9: each included paper contributes exactly one value to the domain-count
dict — a record with a missing or absent `healthcare_domain` is bucketed
under the sentinel `"Unspecified"` by the defaulted lookup — so every key's
count is the number of ranked papers with that (defaulted) domain and the sum
of all counts equals the number of included papers. -/
theorem domain_counts_spec (papers : List Paper) :
    ((domain_counts (rank_papers papers)).map Prod.snd).sum =
      (papers.filter get_incl).length
    ∧ (∀ d : String, ((domain_counts (rank_papers papers)).lookup d).getD 0 =
        (rank_papers papers).countP (fun p => get_domain p == d))
    ∧ ∀ p : Paper, p.scores.bind (fun s => s.healthcare_domain) = none →
        get_domain p = "Unspecified" := by
  refine ⟨?_, ?_, ?_⟩
  · rw [domain_counts, sum_domain_counts_fold]
    simp only [List.map_nil, List.sum_nil, Nat.zero_add]
    exact (List.mergeSort_perm (papers.filter get_incl) score_le).length_eq
  · intro d
    rw [domain_counts, lookup_domain_counts_fold]
    simp
  · intro p h
    simp [get_domain, h]

/-- C9 witness: the aggregate equality evaluated on a concrete one-paper
corpus. -/
theorem domain_counts_spec_witness :
    ((domain_counts (rank_papers [paperA])).map Prod.snd).sum =
      ([paperA].filter get_incl).length :=
  (domain_counts_spec [paperA]).1

/-! ## Claims about the corpus loader (C6, C7) -/

/-- The record a qualifying pdf file turns into. -/
def record_of (f : String × String × Except String (List String)) : Paper :=
  { filename := f.1, filepath := f.2.1,
    content := extract_text_from_pdf f.2.2 (some 10), scores := none }

/-- Processing a listing distributes over concatenation of listings. -/
theorem process_directory_append (directory : String) (xs ys : List Entry) :
    process_directory directory (xs ++ ys) =
      ((process_directory directory xs).1 ++ (process_directory directory ys).1,
       (process_directory directory xs).2 ++ (process_directory directory ys).2) := by
  induction xs with
  | nil => simp [process_directory]
  | cons e es ih => simp [process_directory, ih]

mutual

/-- In a fully listable entry all of whose qualifying pdf files extract to
non-empty text, processing yields exactly one record per pdf file, in walk
order, and no warnings. -/
theorem process_entry_complete (directory : String) (e : Entry)
    (h1 : listable e = true)
    (h2 : ∀ f ∈ pdf_files_entry directory e,
      extract_text_from_pdf f.2.2 (some 10) ≠ "") :
    process_entry directory e = ((pdf_files_entry directory e).map record_of, []) :=
  match e with
  | .file name doc => by
    by_cases hpdf : has_pdf_ext name
    · have hne := h2 (name, directory ++ "/" ++ name, doc)
        (by simp [pdf_files_entry, hpdf])
      simp [process_entry, pdf_files_entry, hpdf, record_of, hne]
    · simp [process_entry, pdf_files_entry, hpdf]
  | .dir name entries => by
    have h1' : listableList entries = true := by simpa [listable] using h1
    have h2' : ∀ f ∈ pdf_files (directory ++ "/" ++ name) entries,
        extract_text_from_pdf f.2.2 (some 10) ≠ "" := by
      intro f hf
      exact h2 f (by simpa [pdf_files_entry] using hf)
    simpa [process_entry, pdf_files_entry] using
      process_directory_complete (directory ++ "/" ++ name) entries h1' h2'
  | .baddir name err => by simp [listable] at h1

/-- In a fully listable listing all of whose qualifying pdf files extract to
non-empty text, processing yields exactly one record per pdf file, in walk
order, and no warnings. -/
theorem process_directory_complete (directory : String) (es : List Entry)
    (h1 : listableList es = true)
    (h2 : ∀ f ∈ pdf_files directory es,
      extract_text_from_pdf f.2.2 (some 10) ≠ "") :
    process_directory directory es = ((pdf_files directory es).map record_of, []) :=
  match es with
  | [] => by simp [process_directory, pdf_files]
  | e :: es => by
    have hpair : listable e = true ∧ listableList es = true := by
      simpa [listableList, Bool.and_eq_true] using h1
    have r1 := process_entry_complete directory e hpair.1
      (fun f hf => h2 f (by simp [pdf_files, hf]))
    have r2 := process_directory_complete directory es hpair.2
      (fun f hf => h2 f (by simp [pdf_files, hf]))
    simp [process_directory, pdf_files, r1, r2]

end

/-- C6: over a fully listable directory tree whose `.pdf`-named files (the
extension matched case-insensitively) are all readable and extract to
non-empty text, `load_papers` records exactly the pdf files — one record per
file, with non-empty content equal to the extraction truncated at the 10-page
cap — and never records a non-PDF file (the records are the image of the pdf
files alone). -/
theorem load_papers_complete (paper_dir : String) (entries : List Entry)
    (h1 : listableList entries = true)
    (h2 : ∀ f ∈ pdf_files paper_dir entries,
      extract_text_from_pdf f.2.2 (some 10) ≠ "") :
    (load_papers paper_dir entries).1.1 = (pdf_files paper_dir entries).map record_of
    ∧ (load_papers paper_dir entries).1.1.length = (pdf_files paper_dir entries).length
    ∧ ∀ r ∈ (load_papers paper_dir entries).1.1, r.content ≠ "" := by
  have h := process_directory_complete paper_dir entries h1 h2
  refine ⟨by simp [load_papers, h], by simp [load_papers, h], ?_⟩
  intro r hr
  rw [load_papers] at hr
  simp only [h, List.mem_map] at hr
  obtain ⟨f, hf, rfl⟩ := hr
  exact h2 f hf

/-- C6 witness: a tree with an uppercase-extension PDF at the root, a
non-PDF file, and a PDF in a subdirectory loads exactly the two pdf files. -/
theorem load_papers_complete_witness :
    (load_papers "papers"
        [Entry.file "a.PDF" (Except.ok ["hello"]),
         Entry.file "notes.txt" (Except.ok ["x"]),
         Entry.dir "sub" [Entry.file "b.pdf" (Except.ok ["world"])]]).1.1.length =
      (pdf_files "papers"
        [Entry.file "a.PDF" (Except.ok ["hello"]),
         Entry.file "notes.txt" (Except.ok ["x"]),
         Entry.dir "sub" [Entry.file "b.pdf" (Except.ok ["world"])]]).length :=
  (load_papers_complete "papers" _ (by decide) (by decide)).2.1

/-- C7: a subdirectory whose listing raises is skipped — the records are
exactly those of its siblings, processed before and after it — while the
warning the `except` branch prints is reported; `process_directory` being a
total function, no exception escapes. -/
theorem process_directory_baddir (directory : String) (before after : List Entry)
    (name err : String) :
    (process_directory directory (before ++ Entry.baddir name err :: after)).1 =
      (process_directory directory before).1 ++ (process_directory directory after).1
    ∧ ("Error accessing directory " ++ directory ++ "/" ++ name ++ ": " ++ err)
        ∈ (process_directory directory (before ++ Entry.baddir name err :: after)).2 := by
  have h := process_directory_append directory before (Entry.baddir name err :: after)
  constructor
  · rw [h]
    simp [process_directory, process_entry]
  · rw [h]
    simp [process_directory, process_entry]

end ResearchPaperAnalyzer
